import Mathlib

/-!
Formal model of the b-sea/go-server health-aggregation engine, telemetry
middleware and server lifecycle, shallowly embedded from the Go sources
(package `server`: healthcheck.go, server.go, option definitions, the
telemetry middleware file).  Checker outcomes, request flags and clock
readings are passed as explicit parameters; side effects (WriteHeader
calls, log emission, recorder calls) are recorded as explicit traces in
the result records.
-/

/-- Model of a Go `error` value as the health handlers observe it: its
`Error()` message and the outcome of `json.Marshal` on it (`none` when
marshaling fails, otherwise the serialized bytes as a string). -/
structure GoError where
  msg : String
  marshalJSON : Option String
deriving DecidableEq, Repr

/-- The constant `healthyStatus = "healthy"` from server/healthcheck.go. -/
def healthyStatus : String := "healthy"

/-- The constant `unhealthyStatus = "unhealthy"` from server/healthcheck.go. -/
def unhealthyStatus : String := "unhealthy"

/-- A registered dependency health checker, modelled by the outcome of its
`HealthCheck(ctx)` call during the request under consideration: `none` for
success, `some e` when it returns error `e`. -/
def HealthChecker : Type := Option GoError

/-- The `serviceHealth` struct from server/healthcheck.go: the name of one
dependency and the error its check returned, as sent over `serviceChan`. -/
structure serviceHealth where
  name : String
  err : Option GoError
deriving DecidableEq, Repr

/-- The fan-out phase of `healthCheckHandler`: `checkService` sends
`serviceHealth(name, checker.HealthCheck(ctx))` for every registry entry.
The collection loop then reads these in some arrival order, i.e. in some
permutation of this list. -/
def checksOf (healthDependencies : List (String × HealthChecker)) :
    List serviceHealth :=
  healthDependencies.map fun p => { name := p.1, err := p.2 }

/-- A value stored in the `Dependencies` map (Go type `map[string]any`):
either a status string (the handler stores `healthyStatus`), the raw error
value itself (which the JSON encoder later renders in its structured form),
or the plain text of `err.Error()`. -/
inductive DepDetail where
  | statusStr (s : String)
  | errStructured (e : GoError)
  | errText (s : String)
deriving DecidableEq, Repr

/-- Go map assignment `m[k] = v`, on the model of `map[string]any` as a
total function into `Option`. -/
def mapSet (m : String → Option DepDetail) (k : String) (v : DepDetail) :
    String → Option DepDetail :=
  fun n => if n = k then some v else m n

/-- The mutable state of the collection loop in `healthCheckHandler`
(healthcheck.go lines 146-166): the aggregate `Status` field, the
`Dependencies` map, and the trace of `writer.WriteHeader` calls made so
far. -/
structure AggState where
  status : String
  deps : String → Option DepDetail
  writeHeaderCalls : List Nat

/-- One iteration of the `for range s.healthDependencies` collection loop of
`healthCheckHandler`, translated statement by statement:
set `Dependencies[name] = healthyStatus`; if the check succeeded continue;
otherwise store the raw error, overwrite it with `err.Error()` when
`json.Marshal` fails or yields the empty object, and - only when the
aggregate status is still healthy - flip the status to unhealthy and call
`writer.WriteHeader(500)`. -/
def processResult (st : AggState) (health : serviceHealth) : AggState :=
  let st1 : AggState :=
    { st with deps := mapSet st.deps health.name (.statusStr healthyStatus) }
  match health.err with
  | none => st1
  | some e =>
    let detail : DepDetail :=
      match e.marshalJSON with
      | none => .errText e.msg
      | some data =>
          if data = "\x7b\x7d" then .errText e.msg else .errStructured e
    let st2 : AggState := { st1 with deps := mapSet st1.deps health.name detail }
    if st2.status = healthyStatus then
      { st2 with
        status := unhealthyStatus
        writeHeaderCalls := st2.writeHeaderCalls ++ [500] }
    else st2

/-- The result value initialized at the top of `healthCheckHandler`:
status healthy, empty dependency map, and no `WriteHeader` call yet. -/
def initAggState : AggState :=
  { status := healthyStatus, deps := fun _ => none, writeHeaderCalls := [] }

/-- The collection phase of `healthCheckHandler` (the aggregate check, spec
name `CheckAll`): fold the loop body over the dependency results in their
arrival order. -/
def checkAll (results : List serviceHealth) : AggState :=
  results.foldl processResult initAggState

/-- Net HTTP effect of one invocation of the `/health` handler.
`writeHeaderCalls` is the ordered trace of explicit `WriteHeader` calls;
`observeHealthCalls` is the ordered trace of `ObserveHealth` calls on the
metrics recorder; `logged` records whether the structured log entry was
emitted; `jsonBodyWritten` whether the JSON encoding of the result was
written to the response. -/
structure AggResponse where
  contentType : String
  status : String
  uptime : Nat
  dependencies : String → Option DepDetail
  writeHeaderCalls : List Nat
  observeHealthCalls : List (String × Bool)
  logged : Bool
  jsonBodyWritten : Bool

/-- The `/health` handler `healthCheckHandler` (healthcheck.go lines
126-176).  Parameters replace ambient request state: `uptime` is the value
of `s.Uptime()` when the result struct is built, `verbose` is
`request.URL.Query().Has("verbose")`, and `results` is the sequence of
`serviceHealth` values read from `serviceChan`, in arrival order.
The handler adds the JSON content type, folds the collection loop, always
emits the structured log entry, and writes the JSON body only when the
verbose flag is present.  Its Go signature takes no `Recorder` and it makes
no recorder calls, so `observeHealthCalls` is the empty trace. -/
def healthCheckHandler (uptime : Nat) (verbose : Bool)
    (results : List serviceHealth) : AggResponse :=
  let st := checkAll results
  { contentType := "application/json"
    status := st.status
    uptime := uptime
    dependencies := st.deps
    writeHeaderCalls := st.writeHeaderCalls
    observeHealthCalls := []
    logged := true
    jsonBodyWritten := verbose }

/-- Go `net/http` semantics of the final response status line: the first
explicit `WriteHeader` call wins (later calls are superfluous and ignored);
when the handler never calls `WriteHeader`, 200 is sent implicitly. -/
def effectiveStatus (calls : List Nat) : Nat := calls.headD 200

/-- Net HTTP effect of one invocation of the per-dependency health handler.
`resultValue` models `result[name]`; `plainBody` is the text written by
`http.Error` on the not-found path. -/
structure DepResponse where
  contentType : String
  writeHeaderCalls : List Nat
  resultValue : Option DepDetail
  plainBody : Option String
  logged : Bool
  jsonBodyWritten : Bool
deriving DecidableEq, Repr

/-- The `/health/name` handler `dependencyHealthCheckHandler`
(healthcheck.go lines 178-208).  It looks `name` up in
`s.healthDependencies`; when absent it replies through
`http.Error(writer, "404 page not found", http.StatusNotFound)` - which
sets the plain-text content type, calls `WriteHeader(404)` and writes the
message plus a newline - and returns before the content-type header, the
log statement or any JSON output is reached (a request whose path matches
no registered route is answered identically by the router's NotFound
handler installed in `prepareHTTPServe`).  For a registered name it runs
the single check synchronously, applies the same marshal-or-text detail
rule as the aggregate loop, always logs, and writes the JSON body only
when the verbose flag is present. -/
def dependencyHealthCheckHandler
    (healthDependencies : List (String × HealthChecker))
    (name : String) (verbose : Bool) : DepResponse :=
  match healthDependencies.lookup name with
  | none =>
      { contentType := "text/plain; charset=utf-8"
        writeHeaderCalls := [404]
        resultValue := none
        plainBody := some ("404 page not found" ++ "\n")
        logged := false
        jsonBodyWritten := false }
  | some checker =>
      match checker with
      | none =>
          { contentType := "application/json"
            writeHeaderCalls := []
            resultValue := some (.statusStr healthyStatus)
            plainBody := none
            logged := true
            jsonBodyWritten := verbose }
      | some e =>
          let detail : DepDetail :=
            match e.marshalJSON with
            | none => .errText e.msg
            | some data =>
                if data = "\x7b\x7d" then .errText e.msg else .errStructured e
          { contentType := "application/json"
            writeHeaderCalls := [500]
            resultValue := some detail
            plainBody := none
            logged := true
            jsonBodyWritten := verbose }

/-- Whether `json.Marshal` on the error succeeds and yields something other
than the empty object. -/
def marshalNontrivial (e : GoError) : Bool :=
  match e.marshalJSON with
  | none => false
  | some data => data != "\x7b\x7d"

/-- The detail value the handlers end up recording for one collected
`serviceHealth` (proved below to agree with both handlers). -/
def detailFor (h : serviceHealth) : DepDetail :=
  match h.err with
  | none => .statusStr healthyStatus
  | some e =>
      if marshalNontrivial e then .errStructured e else .errText e.msg

/-- The `Server` state relevant to uptime reporting (server.go).  Go time
instants are modelled as naturals with 0 standing for the `time.Time` zero
value, so `startedAt.IsZero()` becomes `startedAt = 0`.  `handlerPrepared`
mirrors the `http.Handler` installation done by `prepareHTTPServe`. -/
structure Server where
  startedAt : Nat
  handlerPrepared : Bool
deriving DecidableEq, Repr

/-- The constructor `New` (server.go lines 201-216): `startedAt` is
initialized to `time.Time` zero value. -/
def Server.new : Server := { startedAt := 0, handlerPrepared := false }

/-- The accessor `Uptime` (server.go lines 232-239): 0 when `startedAt` is
the zero time, otherwise `time.Since(startedAt)` at clock reading `now`. -/
def Server.Uptime (s : Server) (now : Nat) : Nat :=
  if s.startedAt = 0 then 0 else now - s.startedAt

/-- The helper `prepareHTTPServe` (server.go lines 296-303): installs the
router as the HTTP handler; it never touches `startedAt`. -/
def Server.prepareHTTPServe (s : Server) : Server :=
  { s with handlerPrepared := true }

/-- The method `ServeHTTP` (server.go lines 261-264): prepares the handler
and dispatches the request; `startedAt` is unchanged. -/
def Server.serveHTTP (s : Server) : Server :=
  s.prepareHTTPServe

/-- The method `Start` (server.go lines 266-280): records `time.Now()`
(parameter `now`) into `startedAt` under the mutex. -/
def Server.start (s : Server) (now : Nat) : Server :=
  { s.prepareHTTPServe with startedAt := now }

/-- The method `Stop` (server.go lines 282-294): resets `startedAt` to the
`time.Time` zero value under the mutex. -/
def Server.stop (s : Server) : Server :=
  { s with startedAt := 0 }

/-- Operations that drive a server without ever calling `Start`: direct
`ServeHTTP` dispatches and `Stop` calls. -/
inductive ServerOp where
  | serve
  | stop
deriving DecidableEq, Repr

/-- Apply one no-`Start` operation to the server state. -/
def applyOp (s : Server) : ServerOp → Server
  | .serve => s.serveHTTP
  | .stop => s.stop

/-- Run a sequence of no-`Start` operations from a freshly constructed
server. -/
def runOps (ops : List ServerOp) : Server :=
  ops.foldl applyOp Server.new

/-- The `telemetryWriter` wrapper from the telemetry middleware file: the
response decorator capturing the status code (default 200), the cumulative
body size, and the response headers. -/
structure telemetryWriter where
  StatusCode : Nat
  Size : Nat
  headers : List (String × String)
deriving DecidableEq, Repr

/-- The decorated `WriteHeader`: records the status code (and forwards the
call to the wrapped writer). -/
def telemetryWriter.WriteHeader (w : telemetryWriter) (code : Nat) :
    telemetryWriter :=
  { w with StatusCode := code }

/-- A value a Go handler can panic with: either a value implementing
`error`, or any other value, which the recovery block renders through
`fmt.Errorf("%v", panicked)`. -/
inductive PanicVal where
  | errVal (e : GoError)
  | otherVal (rendered : String)
deriving DecidableEq, Repr

/-- The `Error()` text of the error value the recovery block coerces the
panic into (`err, ok := panicked.(error)`, else `fmt.Errorf("%v", ...)`). -/
def PanicVal.message : PanicVal → String
  | .errVal e => e.msg
  | .otherVal s => s

/-- An inner HTTP handler, as the middleware sees it: it transforms the
wrapped writer and either returns normally (`none`) or unwinds with a panic
value, leaving the writer in its state at the panic point. -/
def Handler : Type := telemetryWriter → telemetryWriter × Option PanicVal

/-- Modelled from the spec: the correlation-ID adoption step of the current
telemetry middleware is not among the source files - only an older
middleware variant without it, the `readCorrelationHeader` field, the
`ReadCorrelationHeader` and `WithCustomCorrelationID` options, and the
tests exercising adoption are.  Per the spec: if header-adoption is
enabled and the inbound request carries a correlation header, reuse it;
otherwise generate a new identifier via the configured generator. -/
def establishCorrelationID (readCorrelationHeader : Bool)
    (inboundHeader : Option String) (generated : String) : String :=
  if readCorrelationHeader then inboundHeader.getD generated
  else generated

/-- Net effect of one pass through the telemetry middleware.
`correlationID` is the value the middleware attached as the response
`Correlation-ID` header before invoking the inner handler; `errorLogs` is
the ordered trace of error-level log entries; `propagatedPanic` is the
panic, if any, that escapes the middleware to its caller. -/
structure MiddlewareResult where
  writer : telemetryWriter
  correlationID : String
  errorLogs : List String
  infoLogged : Bool
  requestDurationObserved : Bool
  responseSizeObserved : Bool
  propagatedPanic : Option PanicVal

/-- The wrapped writer handed to the inner handler: status code defaulted
to 200, size 0, and the correlation header already attached. -/
def initialHijack (correlationID : String) : telemetryWriter :=
  { StatusCode := 200, Size := 0, headers := [("Correlation-ID", correlationID)] }

/-- The `telemetryMiddleware` per-request body.  The deferred block calls
`recover()` unconditionally, so a panic from the inner handler is always
consumed there and never continues unwinding past the middleware; when a
panic was recovered, the block coerces it to an error, calls
`hijack.WriteHeader(500)` and emits exactly one error-level log entry for
`errors.Wrap(err, "http")`, whose message is "http: " plus the panic
message.  In both cases the deferred block then emits the info-level
request log and the two recorder observations.  The correlation ID is
attached to the response header before the inner handler runs; its
adoption rule is `establishCorrelationID` (modelled from the spec, see
there). -/
def telemetryMiddleware (readCorrelationHeader : Bool)
    (inboundHeader : Option String) (generated : String)
    (next : Handler) : MiddlewareResult :=
  let correlationID :=
    establishCorrelationID readCorrelationHeader inboundHeader generated
  let hijack := initialHijack correlationID
  match next hijack with
  | (w, none) =>
      { writer := w
        correlationID := correlationID
        errorLogs := []
        infoLogged := true
        requestDurationObserved := true
        responseSizeObserved := true
        propagatedPanic := none }
  | (w, some panicked) =>
      { writer := w.WriteHeader 500
        correlationID := correlationID
        errorLogs := ["http: " ++ panicked.message]
        infoLogged := true
        requestDurationObserved := true
        responseSizeObserved := true
        propagatedPanic := none }

/-- An inner handler that always panics with a non-error value, used to
exhibit the panic-containment behavior on a concrete input. -/
def panickingNext : Handler :=
  fun w => (w, some (PanicVal.otherVal "uh oh!"))

/-! ## Lemmas about the collection loop -/

/-- Once the aggregate status is unhealthy, further iterations never change
the status and never call `WriteHeader` again. -/
lemma processResult_of_unhealthy (st : AggState) (a : serviceHealth)
    (h : st.status = unhealthyStatus) :
    (processResult st a).status = unhealthyStatus
    ∧ (processResult st a).writeHeaderCalls = st.writeHeaderCalls := by
  have hne : ¬ st.status = healthyStatus := by
    rw [h]; decide
  cases ha : a.err with
  | none => simp [processResult, ha, h]
  | some e => simp [processResult, ha, h, hne, healthyStatus, unhealthyStatus]

/-- Folding the loop from an unhealthy state keeps the status and the
`WriteHeader` trace unchanged. -/
lemma foldl_of_unhealthy (results : List serviceHealth) :
    ∀ st : AggState, st.status = unhealthyStatus →
      (results.foldl processResult st).status = unhealthyStatus
      ∧ (results.foldl processResult st).writeHeaderCalls
        = st.writeHeaderCalls := by
  induction results with
  | nil => intro st h; exact ⟨h, rfl⟩
  | cons a tl ih =>
      intro st h
      have hp := processResult_of_unhealthy st a h
      have := ih (processResult st a) hp.1
      exact ⟨this.1, by rw [List.foldl_cons, this.2, hp.2]⟩

/-- A successful result changes neither the status nor the trace. -/
lemma processResult_of_ok (st : AggState) (a : serviceHealth)
    (ha : a.err = none) :
    (processResult st a).status = st.status
    ∧ (processResult st a).writeHeaderCalls = st.writeHeaderCalls := by
  simp [processResult, ha]

/-- A failing result collected in the healthy state flips the status and
appends exactly one `WriteHeader 500` to the trace. -/
lemma processResult_of_fail (st : AggState) (a : serviceHealth) (e : GoError)
    (ha : a.err = some e) (h : st.status = healthyStatus) :
    (processResult st a).status = unhealthyStatus
    ∧ (processResult st a).writeHeaderCalls = st.writeHeaderCalls ++ [500] := by
  simp [processResult, ha, h]

/-- Folding the loop from a healthy state: the final status is unhealthy
exactly when some collected result failed, and the trace gains one
`WriteHeader 500` exactly in that case. -/
lemma foldl_of_healthy (results : List serviceHealth) :
    ∀ st : AggState, st.status = healthyStatus →
      (results.foldl processResult st).status
        = (if results.any (fun h => h.err.isSome) then unhealthyStatus
           else healthyStatus)
      ∧ (results.foldl processResult st).writeHeaderCalls
        = st.writeHeaderCalls
            ++ (if results.any (fun h => h.err.isSome) then [500] else []) := by
  induction results with
  | nil => intro st h; simpa using h
  | cons a tl ih =>
      intro st h
      cases ha : a.err with
      | none =>
          have hp := processResult_of_ok st a ha
          have htl := ih (processResult st a) (hp.1.trans h)
          rw [List.foldl_cons]
          constructor
          · rw [htl.1]; simp [List.any_cons, ha]
          · rw [htl.2, hp.2]; simp [List.any_cons, ha]
      | some e =>
          have hp := processResult_of_fail st a e ha h
          have htl := foldl_of_unhealthy tl (processResult st a) hp.1
          rw [List.foldl_cons]
          constructor
          · rw [htl.1]; simp [List.any_cons, ha]
          · rw [htl.2, hp.2]; simp [List.any_cons, ha]

/-- The aggregate status after collection is unhealthy exactly when some
dependency check failed. -/
lemma checkAll_status (results : List serviceHealth) :
    (checkAll results).status
      = (if results.any (fun h => h.err.isSome) then unhealthyStatus
         else healthyStatus) :=
  (foldl_of_healthy results initAggState rfl).1

/-- The `WriteHeader` trace of a whole collection pass: one 500 when some
check failed, nothing otherwise. -/
lemma checkAll_calls (results : List serviceHealth) :
    (checkAll results).writeHeaderCalls
      = (if results.any (fun h => h.err.isSome) then [500] else []) := by
  have h := (foldl_of_healthy results initAggState rfl).2
  simpa [initAggState] using h

/-- One iteration stores exactly `detailFor` under the result's own name. -/
lemma processResult_deps_self (st : AggState) (a : serviceHealth) :
    (processResult st a).deps a.name = some (detailFor a) := by
  cases ha : a.err with
  | none => simp [processResult, ha, detailFor, mapSet]
  | some e =>
      cases hm : e.marshalJSON with
      | none =>
          simp [processResult, ha, hm, detailFor, marshalNontrivial, mapSet]
          split <;> simp [mapSet]
      | some data =>
          by_cases hd : data = "\x7b\x7d" <;>
            · simp [processResult, ha, hm, hd, detailFor, marshalNontrivial,
                mapSet]
              split <;> simp [mapSet]

/-- One iteration leaves every other name of the map unchanged. -/
lemma processResult_deps_other (st : AggState) (a : serviceHealth)
    (n : String) (hne : n ≠ a.name) :
    (processResult st a).deps n = st.deps n := by
  cases ha : a.err with
  | none => simp [processResult, ha, mapSet, hne]
  | some e =>
      simp [processResult, ha, mapSet, hne]
      split <;> simp [mapSet, hne]

/-- Names never collected are never added to the dependency map. -/
lemma foldl_deps_untouched (results : List serviceHealth) :
    ∀ (st : AggState) (n : String),
      n ∉ results.map serviceHealth.name →
      (results.foldl processResult st).deps n = st.deps n := by
  induction results with
  | nil => intro st n _; rfl
  | cons a tl ih =>
      intro st n hn
      rw [List.map_cons, List.mem_cons] at hn
      push_neg at hn
      rw [List.foldl_cons, ih (processResult st a) n hn.2,
        processResult_deps_other st a n hn.1]

/-- With pairwise-distinct names, every collected result ends up in the map
under its own name with exactly its `detailFor` value. -/
lemma foldl_deps_mem (results : List serviceHealth) :
    ∀ st : AggState, (results.map serviceHealth.name).Nodup →
      ∀ h ∈ results,
        (results.foldl processResult st).deps h.name = some (detailFor h) := by
  induction results with
  | nil => intro st _ h hmem; exact absurd hmem (List.not_mem_nil h)
  | cons a tl ih =>
      intro st hnd h hmem
      rw [List.map_cons, List.nodup_cons] at hnd
      rcases List.mem_cons.mp hmem with rfl | hmem2
      · rw [List.foldl_cons, foldl_deps_untouched tl (processResult st h)
          h.name hnd.1]
        exact processResult_deps_self st h
      · rw [List.foldl_cons]
        exact ih (processResult st a) hnd.2 h hmem2

/-- Map content of a whole collection pass, membership case. -/
lemma checkAll_deps_mem (results : List serviceHealth)
    (hnd : (results.map serviceHealth.name).Nodup)
    (h : serviceHealth) (hmem : h ∈ results) :
    (checkAll results).deps h.name = some (detailFor h) :=
  foldl_deps_mem results initAggState hnd h hmem

/-- Map content of a whole collection pass, absent case. -/
lemma checkAll_deps_not_mem (results : List serviceHealth) (n : String)
    (hn : n ∉ results.map serviceHealth.name) :
    (checkAll results).deps n = none := by
  rw [checkAll, foldl_deps_untouched results initAggState n hn]; rfl

/-- The predicate `any` is invariant under permutation of the list. -/
lemma any_of_perm {r1 r2 : List serviceHealth} (hp : r1.Perm r2)
    (p : serviceHealth → Bool) : r1.any p = r2.any p := by
  cases h1 : r1.any p <;> cases h2 : r2.any p <;> try rfl
  · obtain ⟨x, hx, hpx⟩ := List.any_eq_true.mp h2
    have := List.any_eq_true.mpr ⟨x, hp.mem_iff.mpr hx, hpx⟩
    rw [h1] at this
    exact absurd this (by simp)
  · obtain ⟨x, hx, hpx⟩ := List.any_eq_true.mp h1
    have := List.any_eq_true.mpr ⟨x, hp.mem_iff.mp hx, hpx⟩
    rw [h2] at this
    exact absurd this (by simp)

/-- The inline marshal check of the per-dependency handler computes the
same detail as `detailFor` on a failing check. -/
lemma inline_detail_eq (e : GoError) :
    (match e.marshalJSON with
      | none => DepDetail.errText e.msg
      | some data =>
          if data = "\x7b\x7d" then DepDetail.errText e.msg
          else DepDetail.errStructured e)
    = (if marshalNontrivial e then DepDetail.errStructured e
       else DepDetail.errText e.msg) := by
  cases hm : e.marshalJSON with
  | none => simp [marshalNontrivial, hm]
  | some data =>
      by_cases hd : data = "\x7b\x7d" <;>
        simp [marshalNontrivial, hm, hd]

/-- Driving a server through `ServeHTTP` and `Stop` alone never moves
`startedAt` away from the zero time. -/
lemma foldl_startedAt_zero (ops : List ServerOp) :
    ∀ s : Server, s.startedAt = 0 →
      (ops.foldl applyOp s).startedAt = 0 := by
  induction ops with
  | nil => intro s h; exact h
  | cons op tl ih =>
      intro s h
      cases op with
      | serve =>
          exact ih _ (by simpa [applyOp, Server.serveHTTP,
            Server.prepareHTTPServe] using h)
      | stop => exact ih _ rfl

/-! ## Claim theorems -/

/-- C1: for every registry of named health dependencies (any list of
collected results with pairwise-distinct names), the aggregate check is
unhealthy iff at least one dependency check returned an error; when every
check succeeds the response is HTTP 200 with status healthy; when at least
one fails the response is HTTP 500, the failing dependency's detail is in
the result map, and every succeeding dependency is still individually
mapped to the healthy status. -/
theorem healthCheckHandler_aggregate_iff (uptime : Nat) (verbose : Bool)
    (results : List serviceHealth)
    (hnd : (results.map serviceHealth.name).Nodup) :
    ((healthCheckHandler uptime verbose results).status = unhealthyStatus
        ↔ ∃ h ∈ results, h.err ≠ none)
    ∧ ((∀ h ∈ results, h.err = none) →
        (healthCheckHandler uptime verbose results).status = healthyStatus
        ∧ effectiveStatus
            (healthCheckHandler uptime verbose results).writeHeaderCalls = 200)
    ∧ (∀ h ∈ results, h.err ≠ none →
        effectiveStatus
            (healthCheckHandler uptime verbose results).writeHeaderCalls = 500
        ∧ (healthCheckHandler uptime verbose results).dependencies h.name
            = some (detailFor h))
    ∧ (∀ h ∈ results, h.err = none →
        (healthCheckHandler uptime verbose results).dependencies h.name
            = some (DepDetail.statusStr healthyStatus)) := by
  have hstat : (healthCheckHandler uptime verbose results).status
      = (checkAll results).status := rfl
  have hcalls : (healthCheckHandler uptime verbose results).writeHeaderCalls
      = (checkAll results).writeHeaderCalls := rfl
  have hdeps : (healthCheckHandler uptime verbose results).dependencies
      = (checkAll results).deps := rfl
  have hany : results.any (fun h => h.err.isSome) = true
      ↔ ∃ h ∈ results, h.err ≠ none := by
    rw [List.any_eq_true]
    constructor
    · rintro ⟨x, hx, hpx⟩
      exact ⟨x, hx, Option.isSome_iff_ne_none.mp hpx⟩
    · rintro ⟨x, hx, hpx⟩
      exact ⟨x, hx, Option.isSome_iff_ne_none.mpr hpx⟩
  refine ⟨?_, ?_, ?_, ?_⟩
  · rw [hstat, checkAll_status]
    by_cases hc : results.any (fun h => h.err.isSome) = true
    · simp only [hc, if_true]
      exact ⟨fun _ => hany.mp hc, fun _ => trivial⟩
    · simp only [hc, if_false]
      constructor
      · intro habs
        exact absurd habs (by decide)
      · intro hex
        exact absurd (hany.mpr hex) hc
  · intro hall
    have hc : results.any (fun h => h.err.isSome) = false := by
      cases hcc : results.any (fun h => h.err.isSome) with
      | false => rfl
      | true =>
          obtain ⟨x, hx, hpx⟩ := hany.mp hcc
          exact absurd (hall x hx) hpx
    constructor
    · rw [hstat, checkAll_status, hc]; rfl
    · rw [hcalls, checkAll_calls, hc]; rfl
  · intro h hmem hfail
    have hc : results.any (fun hh => hh.err.isSome) = true :=
      hany.mpr ⟨h, hmem, hfail⟩
    constructor
    · rw [hcalls, checkAll_calls, hc]; rfl
    · rw [hdeps]
      exact checkAll_deps_mem results hnd h hmem
  · intro h hmem hok
    have := checkAll_deps_mem results hnd h hmem
    rw [hdeps, this, detailFor, hok]

/-- Witness for C1 on the spec's concrete scenario: dependencies db ok,
cache ok, queue failing with a plain error. -/
theorem healthCheckHandler_aggregate_iff_witness :
    ((([⟨"db", none⟩, ⟨"cache", none⟩,
        ⟨"queue", some ⟨"timeout", none⟩⟩] : List serviceHealth).map
          serviceHealth.name).Nodup)
    ∧ (healthCheckHandler 7 true
        [⟨"db", none⟩, ⟨"cache", none⟩, ⟨"queue", some ⟨"timeout", none⟩⟩]).status
        = unhealthyStatus := by
  have hnd : ((([⟨"db", none⟩, ⟨"cache", none⟩,
      ⟨"queue", some ⟨"timeout", none⟩⟩] : List serviceHealth)).map
        serviceHealth.name).Nodup := by decide
  refine ⟨hnd, ?_⟩
  exact (healthCheckHandler_aggregate_iff 7 true _ hnd).1.mpr
    ⟨⟨"queue", some ⟨"timeout", none⟩⟩, by decide, by decide⟩

/-- C5: for every registry (collected results with pairwise-distinct
names) and every permutation of the order in which the concurrent
per-dependency results arrive, the aggregate result content - overall
status and the name-keyed dependency map - is identical. -/
theorem healthCheckHandler_order_invariant (r1 r2 : List serviceHealth)
    (hperm : r1.Perm r2)
    (hnd : (r1.map serviceHealth.name).Nodup)
    (uptime : Nat) (verbose : Bool) :
    (healthCheckHandler uptime verbose r1).status
        = (healthCheckHandler uptime verbose r2).status
    ∧ (healthCheckHandler uptime verbose r1).dependencies
        = (healthCheckHandler uptime verbose r2).dependencies := by
  have hnd2 : (r2.map serviceHealth.name).Nodup :=
    ((hperm.map serviceHealth.name).nodup_iff).mp hnd
  constructor
  · show (checkAll r1).status = (checkAll r2).status
    rw [checkAll_status, checkAll_status,
      any_of_perm hperm (fun h => h.err.isSome)]
  · show (checkAll r1).deps = (checkAll r2).deps
    funext n
    by_cases hmem : ∃ h ∈ r1, h.name = n
    · obtain ⟨h, hh, rfl⟩ := hmem
      rw [checkAll_deps_mem r1 hnd h hh,
        checkAll_deps_mem r2 hnd2 h (hperm.mem_iff.mp hh)]
    · have hn1 : n ∉ r1.map serviceHealth.name := by
        intro hc
        obtain ⟨h, hh, hhn⟩ := List.mem_map.mp hc
        exact hmem ⟨h, hh, hhn⟩
      have hn2 : n ∉ r2.map serviceHealth.name := by
        intro hc
        obtain ⟨h, hh, hhn⟩ := List.mem_map.mp hc
        exact hmem ⟨h, hperm.mem_iff.mpr hh, hhn⟩
      rw [checkAll_deps_not_mem r1 n hn1, checkAll_deps_not_mem r2 n hn2]

/-- Witness for C5: two arrival orders of the same two dependency results
give identical status and dependency map. -/
theorem healthCheckHandler_order_invariant_witness :
    (([⟨"a", none⟩, ⟨"b", some ⟨"boom", none⟩⟩] : List serviceHealth).Perm
        [⟨"b", some ⟨"boom", none⟩⟩, ⟨"a", none⟩])
    ∧ ((([⟨"a", none⟩, ⟨"b", some ⟨"boom", none⟩⟩] : List serviceHealth).map
        serviceHealth.name).Nodup)
    ∧ (healthCheckHandler 0 true
        [⟨"a", none⟩, ⟨"b", some ⟨"boom", none⟩⟩]).status
      = (healthCheckHandler 0 true
        [⟨"b", some ⟨"boom", none⟩⟩, ⟨"a", none⟩]).status
    ∧ (healthCheckHandler 0 true
        [⟨"a", none⟩, ⟨"b", some ⟨"boom", none⟩⟩]).dependencies
      = (healthCheckHandler 0 true
        [⟨"b", some ⟨"boom", none⟩⟩, ⟨"a", none⟩]).dependencies := by
  have hperm : ([⟨"a", none⟩, ⟨"b", some ⟨"boom", none⟩⟩] :
      List serviceHealth).Perm [⟨"b", some ⟨"boom", none⟩⟩, ⟨"a", none⟩] :=
    List.Perm.swap _ _ _
  have hnd : ((([⟨"a", none⟩, ⟨"b", some ⟨"boom", none⟩⟩] :
      List serviceHealth)).map serviceHealth.name).Nodup := by decide
  have h := healthCheckHandler_order_invariant _ _ hperm hnd 0 true
  exact ⟨hperm, hnd, h.1, h.2⟩

/-- C6: during a single aggregate pass the handler calls `WriteHeader`
at most once; after any number `k` of collected results the trace is
exactly one `WriteHeader 500` when the first `k` results contain a
failure and empty otherwise - so the call happens exactly at the first
collected result that flips the status, and never again. -/
theorem writeHeader_first_flip_only (results : List serviceHealth)
    (k : Nat) :
    (checkAll (results.take k)).writeHeaderCalls
      = (if (results.take k).any (fun h => h.err.isSome) then [500] else [])
    ∧ (checkAll results).writeHeaderCalls.length ≤ 1 := by
  constructor
  · exact checkAll_calls (results.take k)
  · rw [checkAll_calls]
    by_cases hc : results.any (fun h => h.err.isSome) = true
    · simp [hc]
    · simp [hc]

/-- C2: for every request to the per-dependency endpoint with a name that
is not a registered health dependency, the response is HTTP 404 with the
plain-text body written by `http.Error` - the message
`404 page not found` plus the newline `http.Error` appends - content type
`text/plain; charset=utf-8`, no JSON body, and no log entry, independent
of the verbose query flag. -/
theorem dependencyHandler_unknown_name (reg : List (String × HealthChecker))
    (name : String) (verbose : Bool)
    (habs : reg.lookup name = none) :
    (dependencyHealthCheckHandler reg name verbose).contentType
        = "text/plain; charset=utf-8"
    ∧ effectiveStatus
        (dependencyHealthCheckHandler reg name verbose).writeHeaderCalls = 404
    ∧ (dependencyHealthCheckHandler reg name verbose).plainBody
        = some ("404 page not found" ++ "\n")
    ∧ (dependencyHealthCheckHandler reg name verbose).jsonBodyWritten = false
    ∧ (dependencyHealthCheckHandler reg name verbose).logged = false := by
  simp [dependencyHealthCheckHandler, habs, effectiveStatus]

/-- Witness for C2: the name `different` against a registry holding only
`sub-system`, with and without the verbose flag. -/
theorem dependencyHandler_unknown_name_witness :
    (([("sub-system", (none : HealthChecker))].lookup "different"
        = (none : Option HealthChecker))
    ∧ (dependencyHealthCheckHandler [("sub-system", none)] "different"
        true).plainBody = some ("404 page not found" ++ "\n")
    ∧ effectiveStatus (dependencyHealthCheckHandler [("sub-system", none)]
        "different" false).writeHeaderCalls = 404) := by
  have habs : ([("sub-system", (none : HealthChecker))].lookup "different"
      = (none : Option HealthChecker)) := by rfl
  exact ⟨habs,
    (dependencyHandler_unknown_name [("sub-system", none)] "different"
      true habs).2.2.1,
    (dependencyHandler_unknown_name [("sub-system", none)] "different"
      false habs).2.1⟩

/-- C3: for the aggregate endpoint, and for the per-dependency endpoint on
a registered name, the JSON body is written if and only if the verbose
query flag is present, while the structured log entry is emitted in both
cases. -/
theorem verbose_gates_json_body (uptime : Nat) (verbose : Bool)
    (results : List serviceHealth) (reg : List (String × HealthChecker))
    (name : String) (checker : HealthChecker)
    (hreg : reg.lookup name = some checker) :
    (healthCheckHandler uptime verbose results).jsonBodyWritten = verbose
    ∧ (healthCheckHandler uptime verbose results).logged = true
    ∧ (dependencyHealthCheckHandler reg name verbose).jsonBodyWritten
        = verbose
    ∧ (dependencyHealthCheckHandler reg name verbose).logged = true := by
  refine ⟨rfl, rfl, ?_, ?_⟩ <;>
    cases checker <;> simp [dependencyHealthCheckHandler, hreg]

/-- Witness for C3: a registered dependency, non-verbose, gets no JSON
body but a log entry. -/
theorem verbose_gates_json_body_witness :
    (([("db", (none : HealthChecker))].lookup "db"
        = some (none : HealthChecker))
    ∧ (healthCheckHandler 0 false []).jsonBodyWritten = false
    ∧ (dependencyHealthCheckHandler [("db", none)] "db"
        false).jsonBodyWritten = false
    ∧ (dependencyHealthCheckHandler [("db", none)] "db" false).logged
        = true) := by
  have hreg : ([("db", (none : HealthChecker))].lookup "db"
      = some (none : HealthChecker)) := by rfl
  have h := verbose_gates_json_body 0 false [] [("db", none)] "db" none hreg
  exact ⟨hreg, h.1, h.2.2.1, h.2.2.2⟩

/-- C4: for every dependency whose check returns an error, the recorded
detail is the structured form of the error exactly when `json.Marshal` on
it succeeds and yields something other than the empty object, and the
plain `Error()` text otherwise - in the aggregate handler and in the
per-dependency handler alike. -/
theorem errorDetail_marshal_rule (e : GoError) (n : String)
    (uptime : Nat) (verbose : Bool) (results : List serviceHealth)
    (reg : List (String × HealthChecker))
    (hmem : serviceHealth.mk n (some e) ∈ results)
    (hnd : (results.map serviceHealth.name).Nodup)
    (hreg : reg.lookup n = some (some e)) :
    (healthCheckHandler uptime verbose results).dependencies n
      = some (if marshalNontrivial e then DepDetail.errStructured e
              else DepDetail.errText e.msg)
    ∧ (dependencyHealthCheckHandler reg n verbose).resultValue
      = some (if marshalNontrivial e then DepDetail.errStructured e
              else DepDetail.errText e.msg) := by
  constructor
  · have h := checkAll_deps_mem results hnd (serviceHealth.mk n (some e)) hmem
    rw [detailFor] at h
    exact h
  · rw [dependencyHealthCheckHandler, hreg]
    simp only [← inline_detail_eq e]

/-- Witness for C4: an error whose `json.Marshal` fails, so both handlers
record its plain text message. -/
theorem errorDetail_marshal_rule_witness :
    ((serviceHealth.mk "queue" (some ⟨"timeout", none⟩)
        ∈ ([⟨"queue", some ⟨"timeout", none⟩⟩] : List serviceHealth))
    ∧ ((([⟨"queue", some ⟨"timeout", none⟩⟩] : List serviceHealth).map
        serviceHealth.name).Nodup)
    ∧ ([("queue", (some ⟨"timeout", none⟩ : HealthChecker))].lookup "queue"
        = some (some ⟨"timeout", none⟩))
    ∧ (healthCheckHandler 0 true
        [⟨"queue", some ⟨"timeout", none⟩⟩]).dependencies "queue"
        = some (DepDetail.errText "timeout")
    ∧ (dependencyHealthCheckHandler
        [("queue", some ⟨"timeout", none⟩)] "queue" true).resultValue
        = some (DepDetail.errText "timeout")) := by
  have h := errorDetail_marshal_rule ⟨"timeout", none⟩ "queue" 0 true
    [⟨"queue", some ⟨"timeout", none⟩⟩]
    [("queue", some ⟨"timeout", none⟩)]
    (by decide) (by decide) (by rfl)
  exact ⟨by decide, by decide, by rfl, h.1, h.2⟩

/-- The attached correlation header value of a middleware pass is always
the one `establishCorrelationID` selects, whatever the inner handler
does. -/
lemma telemetryMiddleware_correlationID (readHeader : Bool)
    (inbound : Option String) (generated : String) (next : Handler) :
    (telemetryMiddleware readHeader inbound generated next).correlationID
      = establishCorrelationID readHeader inbound generated := by
  rcases h : next (initialHijack
      (establishCorrelationID readHeader inbound generated)) with ⟨w, p⟩
  cases p <;> simp [telemetryMiddleware, h]

/-- C7: for every inner handler, when header-adoption is enabled and the
inbound request carries a correlation header, the middleware attaches that
same value as the response `Correlation-ID` header; when adoption is
disabled, the freshly generated identifier from the configured generator
is attached even if the inbound header is present.  (Adoption step
modelled from the spec, see `establishCorrelationID`.) -/
theorem correlation_header_adoption (generated v : String)
    (inbound : Option String) (next : Handler) :
    (telemetryMiddleware true (some v) generated next).correlationID = v
    ∧ (telemetryMiddleware false inbound generated next).correlationID
        = generated := by
  rw [telemetryMiddleware_correlationID, telemetryMiddleware_correlationID]
  constructor <;> simp [establishCorrelationID]

/-- C8: for every inner handler the telemetry middleware returns normally
with no panic crossing its boundary; when the inner handler panics with
any value, the wrapped writer's status is forced to 500 and exactly one
error-level log entry, wrapping the panic message with the constant
`http` tag, is emitted. -/
theorem telemetry_panic_containment (readHeader : Bool)
    (inbound : Option String) (generated : String) (next : Handler) :
    (telemetryMiddleware readHeader inbound generated next).propagatedPanic
        = none
    ∧ (∀ (w : telemetryWriter) (p : PanicVal),
        next (initialHijack
            (establishCorrelationID readHeader inbound generated))
          = (w, some p) →
        (telemetryMiddleware readHeader inbound generated
            next).writer.StatusCode = 500
        ∧ (telemetryMiddleware readHeader inbound generated next).errorLogs
            = ["http: " ++ p.message]
        ∧ (telemetryMiddleware readHeader inbound generated
            next).errorLogs.length = 1) := by
  constructor
  · rcases h : next (initialHijack
        (establishCorrelationID readHeader inbound generated)) with ⟨w, p⟩
    cases p <;> simp [telemetryMiddleware, h]
  · intro w p hp
    refine ⟨?_, ?_, ?_⟩ <;>
      simp [telemetryMiddleware, hp, telemetryWriter.WriteHeader]

/-- Witness for C8: an inner handler that panics with the non-error value
`uh oh!` yields a contained 500 with one tagged error log entry. -/
theorem telemetry_panic_containment_witness :
    (telemetryMiddleware false none "id-1" panickingNext).propagatedPanic
        = none
    ∧ (telemetryMiddleware false none "id-1"
        panickingNext).writer.StatusCode = 500
    ∧ (telemetryMiddleware false none "id-1" panickingNext).errorLogs
        = ["http: uh oh!"] := by
  have h := telemetry_panic_containment false none "id-1" panickingNext
  exact ⟨h.1, (h.2 _ (PanicVal.otherVal "uh oh!") rfl).1,
    (h.2 _ (PanicVal.otherVal "uh oh!") rfl).2.1⟩

/-- C9 counterexample: the claim says every completed dependency check is
reported through exactly one `ObserveHealth` call carrying its name and
health; on the concrete pass with the single healthy dependency `db` the
current aggregate handler makes no `ObserveHealth` call at all, so no call
carrying `db` exists. -/
theorem observeHealth_absent_cx :
    ("db", true) ∉ (healthCheckHandler 0 true
      [⟨"db", none⟩]).observeHealthCalls := by
  simp [healthCheckHandler]

/-- C9 amended: during an aggregate health check pass the current handler
reports nothing to a metrics recorder - its `ObserveHealth` call trace is
empty for every registry, collection order and verbosity (the handler
takes no recorder and the current `Recorder` interface has no
health-observation method). -/
theorem observeHealth_never_called (uptime : Nat) (verbose : Bool)
    (results : List serviceHealth) :
    (healthCheckHandler uptime verbose results).observeHealthCalls = [] :=
  rfl

/-- C10: a server on which `Start` was never called - freshly constructed,
then driven through any sequence of `ServeHTTP` dispatches and `Stop`
calls - keeps `startedAt` at the zero time and reports `Uptime` exactly 0
at every clock reading, and any server has zero `startedAt` and uptime
right after `Stop`; consequently the verbose aggregate health response of
such a server carries uptime 0. -/
theorem uptime_zero_without_start (ops : List ServerOp) (now : Nat)
    (s : Server) (verbose : Bool) (results : List serviceHealth) :
    (runOps ops).startedAt = 0
    ∧ (runOps ops).Uptime now = 0
    ∧ (Server.stop s).startedAt = 0
    ∧ (Server.stop s).Uptime now = 0
    ∧ (healthCheckHandler ((runOps ops).Uptime now) verbose
        results).uptime = 0 := by
  have h0 : (runOps ops).startedAt = 0 :=
    foldl_startedAt_zero ops Server.new rfl
  have hu : (runOps ops).Uptime now = 0 := by
    rw [Server.Uptime, h0]; rfl
  refine ⟨h0, hu, rfl, rfl, ?_⟩
  show (runOps ops).Uptime now = 0
  exact hu
